import Mathlib

/-!
Verification of the reconciliation core of the reqMas constraint-collection
system: the CRDT-style constraint store with mutex auto-resolution
(src/state/crdt_state_manager.py), the dependency graph for progressive
conflict detection (phase2/resolution/dependency_graph.py), the belief
network for use-case inference (phase2/probabilistic/bayesian_network.py),
the confidence aggregator
(phase2/probabilistic/phase2_confidence_aggregator.py) and the
orchestrator's completeness rubric
(src/orchestration/parallel_executor.py).

Numeric values (timestamps, confidences, probabilities) are modelled as
rationals; Python dicts are modelled as insertion-ordered association
lists with first-occurrence lookup, matching dict semantics on
unique-key lists.
-/

set_option autoImplicit false

namespace ReqMas

/-! ### Association-list helpers (Python dict semantics) -/

section AList

variable {α : Type} {β : Type} [DecidableEq α]

/-- Lookup of a key, first occurrence wins (Python dict lookup). -/
def alGet (k : α) : List (α × β) → Option β
  | [] => none
  | (k', v) :: rest => if k' = k then some v else alGet k rest

/-- Assignment `d[k] = v`: update the first occurrence in place, or append
a fresh entry at the end (Python dicts keep insertion order). -/
def alSet (k : α) (v : β) : List (α × β) → List (α × β)
  | [] => [(k, v)]
  | (k', v') :: rest => if k' = k then (k', v) :: rest else (k', v') :: alSet k v rest

/-- Deletion `del d[k]`: drop the first occurrence of the key. -/
def alDel (k : α) : List (α × β) → List (α × β)
  | [] => []
  | (k', v') :: rest => if k' = k then rest else (k', v') :: alDel k rest

theorem alGet_alSet_self (k : α) (v : β) (l : List (α × β)) :
    alGet k (alSet k v l) = some v := by
  induction l with
  | nil => simp [alGet, alSet]
  | cons hd tl ih =>
    obtain ⟨k', v'⟩ := hd
    by_cases h : k' = k
    · simp [alGet, alSet, h]
    · simp [alGet, alSet, h, ih]

theorem alGet_alSet_ne {k k' : α} (v : β) (l : List (α × β)) (h : k' ≠ k) :
    alGet k' (alSet k v l) = alGet k' l := by
  induction l with
  | nil => simp [alGet, alSet, Ne.symm h]
  | cons hd tl ih =>
    obtain ⟨k'', v''⟩ := hd
    by_cases hk : k'' = k
    · subst hk
      have hne : k'' ≠ k' := fun hh => h hh.symm
      simp [alGet, alSet, hne]
    · simp only [alSet, if_neg hk]
      by_cases hk' : k'' = k'
      · simp [alGet, hk']
      · simp [alGet, hk', ih]

theorem alGet_eq_none_of_not_mem {k : α} {l : List (α × β)}
    (h : k ∉ l.map Prod.fst) : alGet k l = none := by
  induction l with
  | nil => rfl
  | cons hd tl ih =>
    obtain ⟨k', v'⟩ := hd
    simp only [List.map_cons, List.mem_cons] at h
    push_neg at h
    have h1 : k' ≠ k := fun hh => h.1 hh.symm
    simp [alGet, h1, ih h.2]

theorem alGet_alDel_self {k : α} {l : List (α × β)}
    (h : (l.map Prod.fst).Nodup) : alGet k (alDel k l) = none := by
  induction l with
  | nil => rfl
  | cons hd tl ih =>
    obtain ⟨k', v'⟩ := hd
    simp only [List.map_cons, List.nodup_cons] at h
    by_cases hk : k' = k
    · subst hk
      simp only [alDel, if_pos rfl]
      exact alGet_eq_none_of_not_mem h.1
    · simp [alDel, alGet, hk, ih h.2]

theorem alGet_append (k : α) (l l' : List (α × β)) :
    alGet k (l ++ l') =
      (match alGet k l with
       | some v => some v
       | none => alGet k l') := by
  induction l with
  | nil => simp [alGet]
  | cons hd tl ih =>
    obtain ⟨k', v'⟩ := hd
    by_cases h : k' = k <;> simp [alGet, h, ih]

theorem alSet_of_absent {k : α} (v : β) {l : List (α × β)}
    (h : alGet k l = none) : alSet k v l = l ++ [(k, v)] := by
  induction l with
  | nil => rfl
  | cons hd tl ih =>
    obtain ⟨k', v'⟩ := hd
    by_cases hk : k' = k
    · simp [alGet, hk] at h
    · simp only [alGet, if_neg hk] at h
      simp [alSet, hk, ih h]

theorem alSet_append_last {k : α} (v w : β) {l : List (α × β)}
    (h : alGet k l = none) : alSet k v (l ++ [(k, w)]) = l ++ [(k, v)] := by
  induction l with
  | nil => simp [alSet]
  | cons hd tl ih =>
    obtain ⟨k', v'⟩ := hd
    by_cases hk : k' = k
    · simp [alGet, hk] at h
    · simp only [alGet, if_neg hk] at h
      simp [alSet, hk, ih h]

end AList

/-! ### CRDT state manager (src/state/crdt_state_manager.py)

`Constraint.value` is an untyped payload in the source (`value: Any`); it is
modelled as a string, which the store never inspects. -/

inductive ConstraintStrength where
  | MANDATORY
  | RECOMMENDED
deriving DecidableEq

/-- Numeric value of the strength enum (`MANDATORY = 10`, `RECOMMENDED = 4`). -/
def ConstraintStrength.val : ConstraintStrength → ℚ
  | .MANDATORY => 10
  | .RECOMMENDED => 4

structure Constraint where
  id : String
  value : String
  strength : ConstraintStrength
  timestamp : ℚ
  source_agent : String
  confidence : ℚ
deriving DecidableEq

structure Resolution where
  conflict_type : String
  constraint_a : String
  constraint_b : String
  chosen : String
  reason : String
  timestamp : ℚ
  auto_resolved : Bool
deriving DecidableEq

structure MutexPair where
  constraint_a : String
  constraint_b : String
deriving DecidableEq

/-- The mutex configuration: a dict category → list of pairs; only the
values are ever iterated, so the category keys are dropped. -/
abbrev MutexConfig := List (List MutexPair)

/-- Per-use-case per-agent vote cells (the G-Counter), a dict of dicts. -/
abbrev Votes := List (String × List (String × ℚ))

structure CRDTState where
  session_id : String
  use_case_votes : Votes
  constraints : List (String × Constraint)
  resolutions : List Resolution
  version : Nat

/-- Read a vote cell, with the defaultdict default of 0. -/
def votesGet (vs : Votes) (uc agent : String) : ℚ :=
  match alGet uc vs with
  | some inner => (alGet agent inner).getD 0
  | none => 0

/-- Write a vote cell (creating the nested entries like the defaultdict). -/
def votesSet (vs : Votes) (uc agent : String) (v : ℚ) : Votes :=
  match alGet uc vs with
  | some inner => alSet uc (alSet agent v inner) vs
  | none => vs ++ [(uc, [(agent, v)])]

/-- `CRDTStateManager._check_mutex_conflict`, inner loop over the flattened
pair list.  Returns the partner id together with the stored constraint
(the source checks presence and then indexes the store). -/
def checkPairs (m : List (String × Constraint)) (cid : String) :
    List MutexPair → Option (String × Constraint)
  | [] => none
  | p :: rest =>
    if cid = p.constraint_a then
      match alGet p.constraint_b m with
      | some ex => some (p.constraint_b, ex)
      | none => checkPairs m cid rest
    else if cid = p.constraint_b then
      match alGet p.constraint_a m with
      | some ex => some (p.constraint_a, ex)
      | none => checkPairs m cid rest
    else checkPairs m cid rest

/-- `CRDTStateManager._check_mutex_conflict`. -/
def checkMutexConflict (cfg : MutexConfig) (m : List (String × Constraint))
    (cid : String) : Option (String × Constraint) :=
  checkPairs m cid cfg.flatten

/-- `CRDTStateManager.resolve_conflict`; `now` stands for `time.time()`. -/
def resolveConflict (s : CRDTState) (a b chosen reason : String)
    (auto : Bool) (now : ℚ) : CRDTState :=
  let res : Resolution :=
    { conflict_type := "MUTEX", constraint_a := a, constraint_b := b,
      chosen := chosen, reason := reason, timestamp := now, auto_resolved := auto }
  let rejected := if chosen = a then b else a
  { s with resolutions := s.resolutions ++ [res],
           constraints := alDel rejected s.constraints,
           version := s.version + 1 }

/-- `CRDTStateManager._handle_mutex_conflict`.  Rule 3 compares the winner
object with the new constraint via the dataclass `__eq__`, which compares
ids only; hence the `existing.id = newC.id` disjunct. -/
def handleMutexConflict (s : CRDTState) (newC : Constraint) (cid : String)
    (existing : Constraint) (now : ℚ) : CRDTState × Bool × Option String :=
  if newC.timestamp - existing.timestamp < 30 then
    let s1 := resolveConflict s cid newC.id newC.id
      "Recency rule: user correction within 30s" true now
    ({ s1 with constraints := alSet newC.id newC s1.constraints }, true,
      some ("Auto-resolved: replaced " ++ cid ++ " with " ++ newC.id))
  else if newC.strength = ConstraintStrength.MANDATORY ∧
          existing.strength = ConstraintStrength.RECOMMENDED then
    let s1 := resolveConflict s cid newC.id newC.id
      "Mandatory constraint overrides recommended" true now
    ({ s1 with constraints := alSet newC.id newC s1.constraints }, true,
      some ("Auto-resolved: mandatory " ++ newC.id ++ " replaced " ++ cid))
  else if (30 : ℚ) / 100 < |newC.confidence - existing.confidence| then
    if existing.confidence < newC.confidence ∨ existing.id = newC.id then
      let s1 := resolveConflict s cid newC.id newC.id
        "Higher confidence" true now
      ({ s1 with constraints := alSet newC.id newC s1.constraints }, true,
        some ("Auto-resolved: higher confidence " ++ newC.id))
    else (s, false, some ("Rejected: lower confidence than " ++ cid))
  else (s, false, some ("MUTEX conflict with " ++ cid ++ " - requires user resolution"))

/-- `CRDTStateManager.add_constraint`. -/
def addConstraint (cfg : MutexConfig) (s : CRDTState) (c : Constraint)
    (now : ℚ) : CRDTState × Bool × Option String :=
  match checkMutexConflict cfg s.constraints c.id with
  | some (cid, existing) => handleMutexConflict s c cid existing now
  | none =>
    match alGet c.id s.constraints with
    | some existing =>
      if existing.timestamp < c.timestamp then
        ({ s with constraints := alSet c.id c s.constraints,
                  version := s.version + 1 }, true, none)
      else (s, false, some "Older timestamp, ignored")
    | none =>
      ({ s with constraints := alSet c.id c s.constraints,
                version := s.version + 1 }, true, none)

/-- `CRDTStateManager.add_use_case_signal`. -/
def addUseCaseSignal (s : CRDTState) (uc : String) (conf : ℚ)
    (agent : String) : CRDTState :=
  let v := max (votesGet s.use_case_votes uc agent) conf
  { s with use_case_votes := votesSet s.use_case_votes uc agent v,
           version := s.version + 1 }

/-- The remote state consumed by `merge_state` (votes, constraints built
from the serialized dicts, and resolutions appended verbatim). -/
structure RemoteState where
  use_cases : List (String × List (String × ℚ))
  constraints : List Constraint
  resolutions : List Resolution

/-- The G-Counter max-merge loop of `merge_state`. -/
def mergeVotes (vs : Votes) (incoming : List (String × List (String × ℚ))) : Votes :=
  incoming.foldl
    (fun acc p =>
      p.2.foldl
        (fun acc' q => votesSet acc' p.1 q.1 (max (votesGet acc' p.1 q.1) q.2))
        acc)
    vs

/-- `CRDTStateManager.merge_state` (the merge report is not modelled; only
the resulting state matters for the claims). -/
def mergeState (cfg : MutexConfig) (s : CRDTState) (other : RemoteState)
    (now : ℚ) : CRDTState :=
  let s1 := { s with use_case_votes := mergeVotes s.use_case_votes other.use_cases }
  let s2 := other.constraints.foldl (fun st c => (addConstraint cfg st c now).1) s1
  let s3 := { s2 with resolutions := s2.resolutions ++ other.resolutions }
  { s3 with version := s3.version + 1 }

/-- A mutating store operation, for stating whole-history invariants. -/
inductive StoreOp where
  | signal (uc : String) (conf : ℚ) (agent : String)
  | addC (c : Constraint) (now : ℚ)
  | mergeS (other : RemoteState) (now : ℚ)
  | resolveC (a b chosen reason : String) (auto : Bool) (now : ℚ)

def applyOp (cfg : MutexConfig) (s : CRDTState) : StoreOp → CRDTState
  | .signal uc conf agent => addUseCaseSignal s uc conf agent
  | .addC c now => (addConstraint cfg s c now).1
  | .mergeS other now => mergeState cfg s other now
  | .resolveC a b ch r auto now => resolveConflict s a b ch r auto now

def runOps (cfg : MutexConfig) (s : CRDTState) (ops : List StoreOp) : CRDTState :=
  ops.foldl (applyOp cfg) s

/-- Keys of the constraint dict are unique (a Python dict invariant). -/
def keysNodup (l : List (String × Constraint)) : Prop :=
  (l.map Prod.fst).Nodup

instance (l : List (String × Constraint)) : Decidable (keysNodup l) := by
  unfold keysNodup; infer_instance

/-! ### Store lemmas and the mutex-resolution claims -/

theorem checkPairs_sound {m : List (String × Constraint)} {cid : String}
    {ps : List MutexPair} {partner : String} {ex : Constraint}
    (h : checkPairs m cid ps = some (partner, ex)) :
    alGet partner m = some ex := by
  induction ps with
  | nil => simp [checkPairs] at h
  | cons p rest ih =>
    by_cases ha : cid = p.constraint_a
    · simp only [checkPairs, if_pos ha] at h
      cases hb : alGet p.constraint_b m with
      | some e =>
        rw [hb] at h
        cases h
        exact hb
      | none =>
        rw [hb] at h
        exact ih h
    · by_cases hb : cid = p.constraint_b
      · simp only [checkPairs, if_neg ha, if_pos hb] at h
        cases hc : alGet p.constraint_a m with
        | some e =>
          rw [hc] at h
          cases h
          exact hc
        | none =>
          rw [hc] at h
          exact ih h
      · simp only [checkPairs, if_neg ha, if_neg hb] at h
        exact ih h

theorem checkMutexConflict_sound {cfg : MutexConfig}
    {m : List (String × Constraint)} {cid partner : String} {ex : Constraint}
    (h : checkMutexConflict cfg m cid = some (partner, ex)) :
    alGet partner m = some ex :=
  checkPairs_sound h

/-- C1.  When the store holds a configured mutex partner of the incoming
constraint and the timestamps are within 30 seconds, the recency rule fires
first: the add succeeds, the partner is removed, the new constraint is
stored, and exactly one auto-resolved Resolution with the recency reason is
appended.  No hypothesis on strengths or confidences is needed, so this
rule takes priority over the strength-dominance and confidence-margin
rules. -/
theorem recency_rule_resolves (cfg : MutexConfig) (s : CRDTState)
    (c : Constraint) (now : ℚ) (cid : String) (existing : Constraint)
    (hc : checkMutexConflict cfg s.constraints c.id = some (cid, existing))
    (hnd : keysNodup s.constraints)
    (hne : cid ≠ c.id)
    (hrec : c.timestamp - existing.timestamp < 30) :
    (addConstraint cfg s c now).2.1 = true
    ∧ alGet c.id (addConstraint cfg s c now).1.constraints = some c
    ∧ alGet cid (addConstraint cfg s c now).1.constraints = none
    ∧ (addConstraint cfg s c now).1.resolutions = s.resolutions ++
        [{ conflict_type := "MUTEX", constraint_a := cid, constraint_b := c.id,
           chosen := c.id, reason := "Recency rule: user correction within 30s",
           timestamp := now, auto_resolved := true }] := by
  have hcid : c.id ≠ cid := fun hh => hne hh.symm
  simp only [addConstraint, hc, handleMutexConflict, if_pos hrec,
    resolveConflict, if_neg hcid]
  refine ⟨trivial, alGet_alSet_self _ _ _, ?_, trivial⟩
  rw [alGet_alSet_ne _ _ hne]
  exact alGet_alDel_self hnd

def cfgScenA : MutexConfig :=
  [[{ constraint_a := "CNST_POWER_MAX_10W", constraint_b := "CNST_PROCESSOR_MIN_I7" }]]

def cP10W : Constraint :=
  { id := "CNST_POWER_MAX_10W", value := "10", strength := .MANDATORY,
    timestamp := 0, source_agent := "elicitor", confidence := 9/10 }

def cI7 : Constraint :=
  { id := "CNST_PROCESSOR_MIN_I7", value := "i7", strength := .MANDATORY,
    timestamp := 1/10, source_agent := "mapper", confidence := 8/10 }

def stateScenA : CRDTState :=
  { session_id := "scenario-a", use_case_votes := [],
    constraints := [("CNST_POWER_MAX_10W", cP10W)], resolutions := [], version := 1 }

/-- Witness for C1: Scenario A of the spec, at concrete inputs. -/
theorem recency_rule_resolves_witness :
    (addConstraint cfgScenA stateScenA cI7 (1/10)).2.1 = true
    ∧ alGet "CNST_PROCESSOR_MIN_I7"
        (addConstraint cfgScenA stateScenA cI7 (1/10)).1.constraints = some cI7
    ∧ alGet "CNST_POWER_MAX_10W"
        (addConstraint cfgScenA stateScenA cI7 (1/10)).1.constraints = none
    ∧ (addConstraint cfgScenA stateScenA cI7 (1/10)).1.resolutions =
        stateScenA.resolutions ++
        [{ conflict_type := "MUTEX", constraint_a := "CNST_POWER_MAX_10W",
           constraint_b := "CNST_PROCESSOR_MIN_I7", chosen := "CNST_PROCESSOR_MIN_I7",
           reason := "Recency rule: user correction within 30s",
           timestamp := 1/10, auto_resolved := true }] :=
  recency_rule_resolves cfgScenA stateScenA cI7 (1/10) "CNST_POWER_MAX_10W" cP10W
    (by rfl) (by decide) (by decide) (by norm_num [cI7, cP10W])

/-- C2.  When a mutex partner is present but no auto-resolution rule fires
(timestamp gap at least 30s, no strength dominance, confidence gap at most
0.3), the add is rejected with the unresolved-mutex message and the store
is returned unchanged: partner still present, nothing inserted, no
Resolution appended, version not incremented. -/
theorem unresolved_mutex_rejects (cfg : MutexConfig) (s : CRDTState)
    (c : Constraint) (now : ℚ) (cid : String) (existing : Constraint)
    (hc : checkMutexConflict cfg s.constraints c.id = some (cid, existing))
    (hts : ¬ c.timestamp - existing.timestamp < 30)
    (hstr : ¬ (c.strength = ConstraintStrength.MANDATORY ∧
               existing.strength = ConstraintStrength.RECOMMENDED))
    (hconf : ¬ (30 : ℚ) / 100 < |c.confidence - existing.confidence|) :
    (addConstraint cfg s c now).2.1 = false
    ∧ (addConstraint cfg s c now).1 = s
    ∧ (addConstraint cfg s c now).2.2 =
        some ("MUTEX conflict with " ++ cid ++ " - requires user resolution")
    ∧ alGet cid s.constraints = some existing := by
  simp only [addConstraint, hc, handleMutexConflict, if_neg hts, if_neg hstr,
    if_neg hconf]
  exact ⟨trivial, trivial, trivial, checkMutexConflict_sound hc⟩

def cfgScenB : MutexConfig :=
  [[{ constraint_a := "CNST_FANLESS", constraint_b := "CNST_GPU_REQUIRED" }]]

def cFanless : Constraint :=
  { id := "CNST_FANLESS", value := "true", strength := .MANDATORY,
    timestamp := 0, source_agent := "elicitor", confidence := 8/10 }

def cGpu : Constraint :=
  { id := "CNST_GPU_REQUIRED", value := "true", strength := .MANDATORY,
    timestamp := 35, source_agent := "mapper", confidence := 8/10 }

def stateScenB : CRDTState :=
  { session_id := "scenario-b", use_case_votes := [],
    constraints := [("CNST_FANLESS", cFanless)], resolutions := [], version := 1 }

/-- Witness for C2: Scenario B of the spec, at concrete inputs. -/
theorem unresolved_mutex_rejects_witness :
    (addConstraint cfgScenB stateScenB cGpu 35).2.1 = false
    ∧ (addConstraint cfgScenB stateScenB cGpu 35).1 = stateScenB
    ∧ (addConstraint cfgScenB stateScenB cGpu 35).2.2 =
        some ("MUTEX conflict with " ++ "CNST_FANLESS" ++ " - requires user resolution")
    ∧ alGet "CNST_FANLESS" stateScenB.constraints = some cFanless :=
  unresolved_mutex_rejects cfgScenB stateScenB cGpu 35 "CNST_FANLESS" cFanless
    (by rfl) (by norm_num [cGpu, cFanless]) (by decide)
    (by norm_num [cGpu, cFanless])

/-! ### LWW commutativity (C3) -/

theorem checkPairs_none (m : List (String × Constraint)) (cid : String)
    {ps : List MutexPair}
    (h : ∀ p ∈ ps, p.constraint_a ≠ cid ∧ p.constraint_b ≠ cid) :
    checkPairs m cid ps = none := by
  induction ps with
  | nil => rfl
  | cons p rest ih =>
    have hp := h p (List.mem_cons_self p rest)
    have ha : cid ≠ p.constraint_a := fun hh => hp.1 hh.symm
    have hb : cid ≠ p.constraint_b := fun hh => hp.2 hh.symm
    simp only [checkPairs, if_neg ha, if_neg hb]
    exact ih (fun q hq => h q (List.mem_cons_of_mem p hq))

theorem checkMutexConflict_none (cfg : MutexConfig)
    (m : List (String × Constraint)) (cid : String)
    (h : ∀ l ∈ cfg, ∀ p ∈ l, p.constraint_a ≠ cid ∧ p.constraint_b ≠ cid) :
    checkMutexConflict cfg m cid = none := by
  apply checkPairs_none
  intro p hp
  rw [List.mem_flatten] at hp
  obtain ⟨l, hl, hpl⟩ := hp
  exact h l hl p hpl

def stateEmpty : CRDTState :=
  { session_id := "s", use_case_votes := [], constraints := [],
    resolutions := [], version := 0 }

def cSameA : Constraint :=
  { id := "CNST_A", value := "v1", strength := .MANDATORY,
    timestamp := 0, source_agent := "agent1", confidence := 1 }

def cSameB : Constraint :=
  { id := "CNST_A", value := "v2", strength := .MANDATORY,
    timestamp := 0, source_agent := "agent2", confidence := 1 }

/-- Counterexample to C3 as stated: two constraints with the same id, no
mutex involvement, equal timestamps but different payloads.  Applying the
two adds in the two orders yields different stores (each order keeps its
first argument, since LWW replaces only on a strictly newer timestamp), so
the claimed order-independence fails without a distinct-timestamp
hypothesis. -/
theorem lww_commutativity_counterexample :
    alGet "CNST_A"
      (addConstraint [] (addConstraint [] stateEmpty cSameA 0).1 cSameB 0).1.constraints
    ≠ alGet "CNST_A"
      (addConstraint [] (addConstraint [] stateEmpty cSameB 0).1 cSameA 0).1.constraints := by
  have h1 : alGet "CNST_A"
      (addConstraint [] (addConstraint [] stateEmpty cSameA 0).1 cSameB 0).1.constraints
      = some cSameA := by rfl
  have h2 : alGet "CNST_A"
      (addConstraint [] (addConstraint [] stateEmpty cSameB 0).1 cSameA 0).1.constraints
      = some cSameB := by rfl
  rw [h1, h2]
  intro h
  have hv : cSameA.value = cSameB.value :=
    congrArg (fun o => (Option.map Constraint.value o).getD "") h
  simp [cSameA, cSameB] at hv

/-- The three LWW branches of `add_constraint` in the no-mutex case. -/
theorem addConstraint_insert (cfg : MutexConfig) (s : CRDTState)
    (c : Constraint) (now : ℚ)
    (hmx : checkMutexConflict cfg s.constraints c.id = none)
    (habs : alGet c.id s.constraints = none) :
    (addConstraint cfg s c now).1.constraints = alSet c.id c s.constraints := by
  unfold addConstraint
  rw [hmx, habs]

theorem addConstraint_replace (cfg : MutexConfig) (s : CRDTState)
    (c : Constraint) (now : ℚ) {ex : Constraint}
    (hmx : checkMutexConflict cfg s.constraints c.id = none)
    (hex : alGet c.id s.constraints = some ex)
    (hlt : ex.timestamp < c.timestamp) :
    (addConstraint cfg s c now).1.constraints = alSet c.id c s.constraints := by
  unfold addConstraint
  rw [hmx, hex]
  simp [hlt]

theorem addConstraint_stale (cfg : MutexConfig) (s : CRDTState)
    (c : Constraint) (now : ℚ) {ex : Constraint}
    (hmx : checkMutexConflict cfg s.constraints c.id = none)
    (hex : alGet c.id s.constraints = some ex)
    (hnlt : ¬ ex.timestamp < c.timestamp) :
    (addConstraint cfg s c now).1.constraints = s.constraints := by
  unfold addConstraint
  rw [hmx, hex]
  simp [hnlt]

/-- C3 amended.  For two constraints with the same id, where that id is
mentioned in no configured mutex pair and is absent from the starting
store, and whose timestamps are distinct, the two application orders agree
on the constraints map, which holds the constraint with the later
timestamp.  (With equal timestamps the first-applied one wins, and the
version counters differ between the two orders even in the distinct case,
so order-independence holds for the constraints map, not the full state.) -/
theorem lww_commutativity_amended (cfg : MutexConfig) (s : CRDTState)
    (c1 c2 : Constraint) (n1 n2 : ℚ)
    (hid : c2.id = c1.id)
    (hmx : ∀ l ∈ cfg, ∀ p ∈ l, p.constraint_a ≠ c1.id ∧ p.constraint_b ≠ c1.id)
    (habs : alGet c1.id s.constraints = none)
    (hts : c1.timestamp ≠ c2.timestamp) :
    (addConstraint cfg (addConstraint cfg s c1 n1).1 c2 n2).1.constraints
      = (addConstraint cfg (addConstraint cfg s c2 n1).1 c1 n2).1.constraints
    ∧ alGet c1.id
        (addConstraint cfg (addConstraint cfg s c1 n1).1 c2 n2).1.constraints
      = some (if c1.timestamp < c2.timestamp then c2 else c1) := by
  have hmx1 := checkMutexConflict_none cfg s.constraints c1.id hmx
  have habs2 : alGet c2.id s.constraints = none := by rw [hid]; exact habs
  have hmx2 : checkMutexConflict cfg s.constraints c2.id = none := by
    rw [hid]; exact hmx1
  -- first add in each order: plain insert at the end
  have hadd1 : (addConstraint cfg s c1 n1).1.constraints
      = s.constraints ++ [(c1.id, c1)] := by
    rw [addConstraint_insert cfg s c1 n1 hmx1 habs]
    exact alSet_of_absent c1 habs
  have hadd2 : (addConstraint cfg s c2 n1).1.constraints
      = s.constraints ++ [(c1.id, c2)] := by
    rw [addConstraint_insert cfg s c2 n1 hmx2 habs2]
    rw [alSet_of_absent c2 habs2, hid]
  have hmxA : checkMutexConflict cfg (addConstraint cfg s c1 n1).1.constraints c2.id
      = none := by
    rw [hid]
    exact checkMutexConflict_none cfg _ c1.id hmx
  have hmxB : checkMutexConflict cfg (addConstraint cfg s c2 n1).1.constraints c1.id
      = none :=
    checkMutexConflict_none cfg _ c1.id hmx
  have hget1 : alGet c2.id (addConstraint cfg s c1 n1).1.constraints = some c1 := by
    rw [hid, hadd1, alGet_append]
    simp [habs, alGet]
  have hget2 : alGet c1.id (addConstraint cfg s c2 n1).1.constraints = some c2 := by
    rw [hadd2, alGet_append]
    simp [habs, alGet]
  rcases lt_or_gt_of_ne hts with hlt | hgt
  · -- c2 has the later timestamp: order (c1, c2) replaces, order (c2, c1) rejects
    have hA := addConstraint_replace cfg (addConstraint cfg s c1 n1).1 c2 n2 hmxA hget1 hlt
    rw [hadd1, hid, alSet_append_last c2 c1 habs] at hA
    have hB := addConstraint_stale cfg (addConstraint cfg s c2 n1).1 c1 n2 hmxB hget2
      (not_lt_of_gt hlt)
    rw [hadd2] at hB
    refine ⟨hA.trans hB.symm, ?_⟩
    rw [hA, if_pos hlt, alGet_append]
    simp [habs, alGet]
  · -- c1 has the later timestamp: order (c1, c2) rejects, order (c2, c1) replaces
    have hA := addConstraint_stale cfg (addConstraint cfg s c1 n1).1 c2 n2 hmxA hget1
      (not_lt_of_gt hgt)
    rw [hadd1] at hA
    have hB := addConstraint_replace cfg (addConstraint cfg s c2 n1).1 c1 n2 hmxB hget2 hgt
    rw [hadd2, alSet_append_last c1 c2 habs] at hB
    refine ⟨hA.trans hB.symm, ?_⟩
    rw [hA, if_neg (not_lt_of_gt hgt), alGet_append]
    simp [habs, alGet]

def cLww1 : Constraint :=
  { id := "CNST_B", value := "w1", strength := .MANDATORY,
    timestamp := 0, source_agent := "agent1", confidence := 1 }

def cLww2 : Constraint :=
  { id := "CNST_B", value := "w2", strength := .RECOMMENDED,
    timestamp := 5, source_agent := "agent2", confidence := 1 }

/-- Witness for the amended C3 at concrete inputs. -/
theorem lww_commutativity_amended_witness :
    (addConstraint [] (addConstraint [] stateEmpty cLww1 0).1 cLww2 0).1.constraints
      = (addConstraint [] (addConstraint [] stateEmpty cLww2 0).1 cLww1 0).1.constraints
    ∧ alGet cLww1.id
        (addConstraint [] (addConstraint [] stateEmpty cLww1 0).1 cLww2 0).1.constraints
      = some (if cLww1.timestamp < cLww2.timestamp then cLww2 else cLww1) :=
  lww_commutativity_amended [] stateEmpty cLww1 cLww2 0 0
    (by rfl) (by simp) (by rfl) (by norm_num [cLww1, cLww2])

/-! ### G-Counter monotonicity (C4) and version monotonicity (C8) -/

theorem votesGet_votesSet (vs : Votes) (uc ag : String) (v : ℚ) (uc' ag' : String) :
    votesGet (votesSet vs uc ag v) uc' ag' =
      if uc' = uc ∧ ag' = ag then v else votesGet vs uc' ag' := by
  unfold votesGet votesSet
  cases huc : alGet uc vs with
  | some inner =>
    by_cases h1 : uc' = uc
    · subst h1
      simp only [alGet_alSet_self]
      by_cases h2 : ag' = ag
      · subst h2
        simp [alGet_alSet_self]
      · simp [alGet_alSet_ne _ _ h2, h2, huc]
    · simp [alGet_alSet_ne _ _ h1, h1]
  | none =>
    by_cases h1 : uc' = uc
    · subst h1
      by_cases h2 : ag' = ag
      · subst h2
        simp [alGet_append, alGet, huc]
      · have h2' : ag ≠ ag' := fun hh => h2 hh.symm
        simp [alGet_append, alGet, h2', h2, huc]
    · have h1' : uc ≠ uc' := fun hh => h1 hh.symm
      cases hg : alGet uc' vs <;> simp [alGet_append, alGet, h1, h1', hg]

theorem votesSet_max_le (vs : Votes) (uc ag : String) (conf : ℚ) (uc' ag' : String) :
    votesGet vs uc' ag' ≤
      votesGet (votesSet vs uc ag (max (votesGet vs uc ag) conf)) uc' ag' := by
  rw [votesGet_votesSet]
  split_ifs with h
  · rw [h.1, h.2]
    exact le_max_left _ _
  · exact le_refl _

theorem votesGet_le_foldl {β : Type} (step : Votes → β → Votes)
    (hstep : ∀ vs b uc ag, votesGet vs uc ag ≤ votesGet (step vs b) uc ag)
    (l : List β) : ∀ (vs : Votes) (uc ag : String),
    votesGet vs uc ag ≤ votesGet (l.foldl step vs) uc ag := by
  induction l with
  | nil => intro vs uc ag; exact le_refl _
  | cons b rest ih =>
    intro vs uc ag
    exact le_trans (hstep vs b uc ag) (ih _ _ _)

theorem mergeVotes_le (vs : Votes) (incoming : List (String × List (String × ℚ)))
    (uc ag : String) : votesGet vs uc ag ≤ votesGet (mergeVotes vs incoming) uc ag := by
  unfold mergeVotes
  apply votesGet_le_foldl
  intro vs' p uc' ag'
  apply votesGet_le_foldl
  intro vs'' q uc'' ag''
  exact votesSet_max_le _ _ _ _ _ _

theorem addConstraint_votes (cfg : MutexConfig) (s : CRDTState) (c : Constraint)
    (now : ℚ) : (addConstraint cfg s c now).1.use_case_votes = s.use_case_votes := by
  unfold addConstraint handleMutexConflict resolveConflict
  repeat' split
  all_goals rfl

theorem foldl_add_votes (cfg : MutexConfig) (now : ℚ) (cs : List Constraint) :
    ∀ st : CRDTState,
    (cs.foldl (fun st c => (addConstraint cfg st c now).1) st).use_case_votes
      = st.use_case_votes := by
  induction cs with
  | nil => intro st; rfl
  | cons c rest ih =>
    intro st
    rw [List.foldl_cons, ih, addConstraint_votes]

theorem mergeState_votes (cfg : MutexConfig) (s : CRDTState) (other : RemoteState)
    (now : ℚ) : (mergeState cfg s other now).use_case_votes
      = mergeVotes s.use_case_votes other.use_cases := by
  show (other.constraints.foldl (fun st c => (addConstraint cfg st c now).1)
      { s with use_case_votes := mergeVotes s.use_case_votes other.use_cases }).use_case_votes
    = mergeVotes s.use_case_votes other.use_cases
  rw [foldl_add_votes]

theorem applyOp_votes_le (cfg : MutexConfig) (s : CRDTState) (op : StoreOp)
    (uc ag : String) :
    votesGet s.use_case_votes uc ag ≤ votesGet (applyOp cfg s op).use_case_votes uc ag := by
  cases op with
  | signal uc0 conf ag0 => exact votesSet_max_le _ _ _ _ _ _
  | addC c now =>
    show votesGet s.use_case_votes uc ag
      ≤ votesGet (addConstraint cfg s c now).1.use_case_votes uc ag
    rw [addConstraint_votes]
  | mergeS other now =>
    show votesGet s.use_case_votes uc ag
      ≤ votesGet (mergeState cfg s other now).use_case_votes uc ag
    rw [mergeState_votes]
    exact mergeVotes_le _ _ _ _
  | resolveC a b ch r auto now => exact le_refl _

/-- C4.  Across any sequence of store operations (use-case signals, adds,
merges, resolves) a vote cell never decreases; and a direct signal sets
the targeted cell to the max of its current value and the incoming
confidence. -/
theorem uc_belief_cells_monotone :
    (∀ (cfg : MutexConfig) (s : CRDTState) (ops : List StoreOp) (uc agent : String),
        votesGet s.use_case_votes uc agent
          ≤ votesGet (runOps cfg s ops).use_case_votes uc agent)
    ∧ (∀ (s : CRDTState) (uc : String) (conf : ℚ) (agent : String),
        votesGet (addUseCaseSignal s uc conf agent).use_case_votes uc agent
          = max (votesGet s.use_case_votes uc agent) conf) := by
  constructor
  · intro cfg s ops
    induction ops generalizing s with
    | nil => intro uc agent; exact le_refl _
    | cons op rest ih =>
      intro uc agent
      exact le_trans (applyOp_votes_le cfg s op uc agent) (ih _ uc agent)
  · intro s uc conf agent
    show votesGet (votesSet s.use_case_votes uc agent
      (max (votesGet s.use_case_votes uc agent) conf)) uc agent = _
    rw [votesGet_votesSet]
    simp

theorem addConstraint_version_le (cfg : MutexConfig) (s : CRDTState)
    (c : Constraint) (now : ℚ) :
    s.version ≤ (addConstraint cfg s c now).1.version := by
  unfold addConstraint handleMutexConflict resolveConflict
  repeat' split
  all_goals simp

theorem addConstraint_version_lt (cfg : MutexConfig) (s : CRDTState)
    (c : Constraint) (now : ℚ)
    (h : (addConstraint cfg s c now).2.1 = true) :
    s.version < (addConstraint cfg s c now).1.version := by
  revert h
  unfold addConstraint handleMutexConflict resolveConflict
  repeat' split
  all_goals intro h
  all_goals simp_all

theorem foldl_add_version_le (cfg : MutexConfig) (now : ℚ) (cs : List Constraint) :
    ∀ st : CRDTState,
    st.version ≤ (cs.foldl (fun st c => (addConstraint cfg st c now).1) st).version := by
  induction cs with
  | nil => intro st; exact le_refl _
  | cons c rest ih =>
    intro st
    exact le_trans (addConstraint_version_le cfg st c now) (ih _)

/-- C8.  The version counter strictly increases on every successful add,
every merge and every resolve, and no store operation ever decreases it. -/
theorem version_strictly_increasing :
    (∀ (cfg : MutexConfig) (s : CRDTState) (c : Constraint) (now : ℚ),
        (addConstraint cfg s c now).2.1 = true →
        s.version < (addConstraint cfg s c now).1.version)
    ∧ (∀ (cfg : MutexConfig) (s : CRDTState) (other : RemoteState) (now : ℚ),
        s.version < (mergeState cfg s other now).version)
    ∧ (∀ (s : CRDTState) (a b chosen reason : String) (auto : Bool) (now : ℚ),
        s.version < (resolveConflict s a b chosen reason auto now).version)
    ∧ (∀ (cfg : MutexConfig) (s : CRDTState) (op : StoreOp),
        s.version ≤ (applyOp cfg s op).version) := by
  have hmerge : ∀ (cfg : MutexConfig) (s : CRDTState) (other : RemoteState) (now : ℚ),
      s.version < (mergeState cfg s other now).version := by
    intro cfg s other now
    exact Nat.lt_succ_of_le (foldl_add_version_le cfg now other.constraints
      { s with use_case_votes := mergeVotes s.use_case_votes other.use_cases })
  refine ⟨addConstraint_version_lt, hmerge, fun s a b ch r auto now => Nat.lt_succ_self _, ?_⟩
  intro cfg s op
  cases op with
  | signal uc conf agent => exact Nat.le_succ _
  | addC c now => exact addConstraint_version_le cfg s c now
  | mergeS other now => exact le_of_lt (hmerge cfg s other now)
  | resolveC a b ch r auto now => exact Nat.le_succ _

def stateVer : CRDTState :=
  { session_id := "v", use_case_votes := [], constraints := [],
    resolutions := [], version := 7 }

def cVer : Constraint :=
  { id := "CNST_V", value := "v", strength := .MANDATORY,
    timestamp := 0, source_agent := "agent1", confidence := 1 }

/-- Witness for C8: a concrete successful add strictly increases version. -/
theorem version_strictly_increasing_witness :
    stateVer.version < (addConstraint [] stateVer cVer 0).1.version :=
  version_strictly_increasing.1 [] stateVer cVer 0 (by rfl)

/-! ### Orchestrator completeness rubric (C9)
(src/orchestration/parallel_executor.py) -/

/-- The per-use-case aggregated scores of `get_snapshot` /
`get_top_use_cases`: sum of the agent votes over `max(len, 1)`. -/
def snapshotUseCases (votes : Votes) : List (String × ℚ) :=
  votes.map (fun p => (p.1, (p.2.map Prod.snd).sum / (max p.2.length 1 : ℚ)))

/-- The score of the top use case: `get_top_use_cases(1)` sorts by score
descending, so its head carries the maximum score (0 when there are no
use cases, in which case the `> 0.8` test below can never pass, matching
the source's emptiness guard). -/
def topUseCaseConfidence (votes : Votes) : ℚ :=
  match snapshotUseCases votes with
  | [] => 0
  | x :: xs => xs.foldl (fun m p => max m p.2) x.2

/-- `ParallelExecutor._has_unresolved_conflicts`, translated with its
branch structure intact: both branches return False. -/
def hasUnresolvedConflicts (rs : List Resolution) (now : ℚ) : Bool :=
  match rs.getLast? with
  | some lastRes => if now - lastRes.timestamp < 1 then false else false
  | none => false

def mandCount (s : CRDTState) : Nat :=
  (s.constraints.filter (fun p => p.2.strength = ConstraintStrength.MANDATORY)).length

def recCount (s : CRDTState) : Nat :=
  (s.constraints.filter (fun p => p.2.strength = ConstraintStrength.RECOMMENDED)).length

/-- `ParallelExecutor._calculate_completeness`, with the weight dict and
the sequential accumulation of the source. -/
def calculateCompleteness (s : CRDTState) (now : ℚ) : ℚ :=
  let wUseCase : ℚ := 2/10
  let wMandatory : ℚ := 5/10
  let wRecommended : ℚ := 2/10
  let wConflicts : ℚ := 1/10
  let score0 : ℚ := 0
  let score1 :=
    if 8/10 < topUseCaseConfidence s.use_case_votes then score0 + wUseCase else score0
  let score2 :=
    if 5 ≤ mandCount s then score1 + wMandatory
    else if 3 ≤ mandCount s then score1 + wMandatory * (1/2)
    else score1
  let score3 := if 3 ≤ recCount s then score2 + wRecommended else score2
  let score4 :=
    if hasUnresolvedConflicts s.resolutions now = false then score3 + wConflicts
    else score3
  min score4 1

/-- C9.  The completeness score is exactly the sum of the four rubric
components (0.2 for a top use case above 0.8 confidence, 0.5 / 0.25 for at
least 5 / at least 3 mandatory constraints, 0.2 for at least 3 recommended
constraints, 0.1 when there is no unresolved conflict), and lies in
[0, 1]. -/
theorem completeness_rubric (s : CRDTState) (now : ℚ) :
    calculateCompleteness s now =
        (if 8/10 < topUseCaseConfidence s.use_case_votes then 2/10 else 0)
      + (if 5 ≤ mandCount s then 5/10 else if 3 ≤ mandCount s then 25/100 else 0)
      + (if 3 ≤ recCount s then 2/10 else 0)
      + (if hasUnresolvedConflicts s.resolutions now = false then 1/10 else 0)
    ∧ 0 ≤ calculateCompleteness s now
    ∧ calculateCompleteness s now ≤ 1 := by
  unfold calculateCompleteness
  split_ifs <;> norm_num

/-! ### Dependency graph and progressive conflict detection (C5)
(phase2/resolution/dependency_graph.py)

The source stores mutex pairs as canonically sorted tuples and tests
membership of the sorted query pair; this is modelled by a symmetric
membership test over the pair list, which has the same semantics.  Sets
built by insertion (the `accumulated` set, requirement sets) are modelled
as insertion-ordered duplicate-free lists. -/

structure DepGraph where
  mutex_pairs : List (String × String)
  req_edges : List (String × String)

structure ConflictPath where
  conflict_type : String
  participants : List String
  path : List String
  severity : ℚ
  explanation : String
  resolution_hints : List String
deriving DecidableEq

/-- `DependencyGraph.is_mutex`. -/
def isMutex (g : DepGraph) (a b : String) : Bool :=
  g.mutex_pairs.any (fun p => (p.1 = a ∧ p.2 = b) ∨ (p.1 = b ∧ p.2 = a))

/-- One BFS round of `_get_all_requirements`: push the unvisited
REQUIRES/IMPLIES neighbours of the current node. -/
def reqStep (edges : List (String × String)) (cur : String)
    (st : List String × List String) : List String × List String :=
  (edges.filter (fun e => e.1 = cur)).foldl
    (fun acc e => if e.2 ∈ acc.1 then acc else (acc.1 ++ [e.2], acc.2 ++ [e.2]))
    st

/-- The BFS loop of `_get_all_requirements`, fuelled; each queue pop
consumes one unit and at most `1 + |edges|` nodes are ever enqueued. -/
def reqClosureAux (edges : List (String × String)) :
    Nat → List String → List String → List String
  | 0, visited, _ => visited
  | _ + 1, visited, [] => visited
  | fuel + 1, visited, cur :: queue =>
    let st := reqStep edges cur (visited, [])
    reqClosureAux edges fuel st.1 (queue ++ st.2)

/-- `DependencyGraph._get_all_requirements`: the id itself plus everything
reachable over REQUIRES/IMPLIES edges. -/
def getAllRequirements (g : DepGraph) (cid : String) : List String :=
  reqClosureAux g.req_edges (g.req_edges.length + 1) [cid] [cid]

/-- First accumulated constraint in direct mutex with the new one. -/
def firstMutexIn (g : DepGraph) (c : String) : List String → Option String
  | [] => none
  | e :: rest => if isMutex g c e then some e else firstMutexIn g c rest

/-- First (new requirement, accumulated requirement) pair in mutex, in the
nested loop order of the source. -/
def firstPairMutex (g : DepGraph) (accReqs : List String) :
    List String → Option (String × String)
  | [] => none
  | n :: rest =>
    match accReqs.find? (fun a => isMutex g n a) with
    | some a => some (n, a)
    | none => firstPairMutex g accReqs rest

/-- The space branch of `_check_threshold_violations`. -/
def spaceCheck (cs : List String) : Option ConflictPath :=
  let spaceAll := ["CNST_COMPACT_FORM", "CNST_MODULAR",
                   "CNST_DIGITAL_IO_MIN_64", "CNST_DIGITAL_IO_MIN_128"]
  let activeSpace := spaceAll.filter (· ∈ cs)
  if "CNST_COMPACT_FORM" ∈ activeSpace then
    if "CNST_DIGITAL_IO_MIN_128" ∈ activeSpace then
      some { conflict_type := "space_violation", participants := activeSpace,
             path := activeSpace, severity := 9/10,
             explanation := "Compact form factor cannot accommodate 128 I/O points",
             resolution_hints := ["Use larger form factor", "Reduce I/O count",
                                  "Use distributed I/O modules"] }
    else if "CNST_DIGITAL_IO_MIN_64" ∈ activeSpace ∧ "CNST_MODULAR" ∈ activeSpace then
      some { conflict_type := "space_warning", participants := activeSpace,
             path := activeSpace, severity := 6/10,
             explanation := "Compact + Modular + 64 I/O is challenging but possible",
             resolution_hints := ["Consider stackable modules",
                                  "Use high-density connectors"] }
    else none
  else none

/-- The power branch of `_check_threshold_violations`. -/
def powerCheck (cs : List String) : Option ConflictPath :=
  let powerAll := ["CNST_POWER_MAX_10W", "CNST_POWER_MAX_20W",
                   "CNST_GPU_REQUIRED", "CNST_PROCESSOR_MIN_I7"]
  let activePower := powerAll.filter (· ∈ cs)
  if "CNST_POWER_MAX_10W" ∈ activePower ∧
     ("CNST_GPU_REQUIRED" ∈ activePower ∨ "CNST_PROCESSOR_MIN_I7" ∈ activePower) then
    some { conflict_type := "power_violation", participants := activePower,
           path := activePower, severity := 1,
           explanation := "10W power limit incompatible with high-performance components",
           resolution_hints := ["Increase power budget", "Use low-power alternatives",
                                "Consider edge AI accelerators"] }
  else none

/-- `DependencyGraph._check_threshold_violations` (space check first,
power check if it returned nothing). -/
def checkThresholdViolations (cs : List String) : Option ConflictPath :=
  match spaceCheck cs with
  | some cp => some cp
  | none => powerCheck cs

/-- Ordered union of the requirement sets of the accumulated ids. -/
def accumulatedRequirements (g : DepGraph) (acc : List String) : List String :=
  acc.foldl (fun s e => s ++ (getAllRequirements g e).filter (· ∉ s)) []

/-- The scan loop of `detect_progressive_conflict`: direct mutex first,
then transitive (requirement-set) mutex, then threshold violations. -/
def dpcAux (g : DepGraph) : List String → List String → List String → Option ConflictPath
  | _, _, [] => none
  | acc, pfxSoFar, c :: rest =>
    let pfx := pfxSoFar ++ [c]
    match firstMutexIn g c acc with
    | some ex =>
      some { conflict_type := "direct_mutex", participants := [ex, c], path := pfx,
             severity := 1,
             explanation := c ++ " conflicts with previously set " ++ ex,
             resolution_hints := ["Remove " ++ ex ++ " to allow " ++ c,
                                  "Skip " ++ c ++ " to keep " ++ ex,
                                  "Find alternative that satisfies both needs"] }
    | none =>
      match firstPairMutex g (accumulatedRequirements g acc) (getAllRequirements g c) with
      | some nr =>
        some { conflict_type := "transitive_conflict", participants := c :: acc,
               path := pfx, severity := 8/10,
               explanation := c ++ " requires " ++ nr.1 ++ " which conflicts with " ++ nr.2,
               resolution_hints :=
                 ["Choose between " ++ c ++ " and constraints requiring " ++ nr.2,
                  "Consider partial implementation", "Look for alternative solutions"] }
      | none =>
        match checkThresholdViolations (acc ++ [c]) with
        | some cp => some cp
        | none => dpcAux g (acc ++ [c]) pfx rest

/-- `DependencyGraph.detect_progressive_conflict`. -/
def detectProgressiveConflict (g : DepGraph) (cs : List String) : Option ConflictPath :=
  if cs.length < 2 then none else dpcAux g [] [] cs

/-- The built-in fallback catalog: `_use_fallback_constraints` mutex pairs
plus the REQUIRES/IMPLIES edges of `_build_relationships` (LIMITS edges
are not followed by the requirement closure and are omitted). -/
def fallbackGraph : DepGraph :=
  { mutex_pairs :=
      [("CNST_FANLESS", "CNST_GPU_REQUIRED"),
       ("CNST_POWER_MAX_10W", "CNST_PROCESSOR_MIN_I7"),
       ("CNST_COMPACT_FORM", "CNST_DIGITAL_IO_MIN_64"),
       ("CNST_COMPACT_FORM", "CNST_DIGITAL_IO_MIN_128"),
       ("CNST_INDOOR_USE", "CNST_IP69K"),
       ("CNST_PRECISION_TEMP", "CNST_HARSH_ENV"),
       ("CNST_WIFI", "CNST_LATENCY_MAX_1MS"),
       ("CNST_BATTERY_POWERED", "CNST_HIGH_COMPUTE")],
    req_edges :=
      [("CNST_GPU_REQUIRED", "CNST_COOLING_ACTIVE"),
       ("CNST_GPU_REQUIRED", "CNST_POWER_MIN_100W"),
       ("CNST_PROCESSOR_MIN_I7", "CNST_MEMORY_MIN_8GB"),
       ("CNST_PROCESSOR_MIN_I7", "CNST_POWER_MIN_35W"),
       ("CNST_DIGITAL_IO_MIN_128", "CNST_EXPANSION_SLOTS"),
       ("CNST_DIGITAL_IO_MIN_128", "CNST_LARGE_FORM"),
       ("CNST_REALTIME_1MS", "CNST_RTOS"),
       ("CNST_REALTIME_1MS", "CNST_DETERMINISTIC"),
       ("CNST_IP69K", "CNST_SEALED_ENCLOSURE"),
       ("CNST_IP69K", "CNST_INDUSTRIAL_CONNECTORS"),
       ("CNST_OUTDOOR", "CNST_WEATHER_RESISTANT"),
       ("CNST_OUTDOOR", "CNST_TEMP_EXTENDED"),
       ("CNST_MEDICAL", "CNST_SAFETY_CERTIFIED"),
       ("CNST_MEDICAL", "CNST_EMC_COMPLIANT"),
       ("CNST_AUTOMOTIVE", "CNST_VIBRATION_RESISTANT"),
       ("CNST_AUTOMOTIVE", "CNST_TEMP_AUTOMOTIVE")] }

/-- C5.  Scenario C: feeding [COMPACT_FORM, MODULAR, DIGITAL_IO_MIN_128]
into `detect_progressive_conflict` on the fallback catalog yields a
conflict whose participants include COMPACT_FORM and DIGITAL_IO_MIN_128
(a direct mutex is found when the third constraint is scanned). -/
theorem scenario_c_progressive_conflict :
    ∃ p, detectProgressiveConflict fallbackGraph
        ["CNST_COMPACT_FORM", "CNST_MODULAR", "CNST_DIGITAL_IO_MIN_128"] = some p
      ∧ "CNST_COMPACT_FORM" ∈ p.participants
      ∧ "CNST_DIGITAL_IO_MIN_128" ∈ p.participants := by
  refine ⟨{ conflict_type := "direct_mutex",
            participants := ["CNST_COMPACT_FORM", "CNST_DIGITAL_IO_MIN_128"],
            path := ["CNST_COMPACT_FORM", "CNST_MODULAR", "CNST_DIGITAL_IO_MIN_128"],
            severity := 1,
            explanation :=
              "CNST_DIGITAL_IO_MIN_128 conflicts with previously set CNST_COMPACT_FORM",
            resolution_hints :=
              ["Remove CNST_COMPACT_FORM to allow CNST_DIGITAL_IO_MIN_128",
               "Skip CNST_DIGITAL_IO_MIN_128 to keep CNST_COMPACT_FORM",
               "Find alternative that satisfies both needs"] }, ?_, ?_, ?_⟩
  · rfl
  · simp
  · simp

/-! ### Belief network (C6, C10)
(phase2/probabilistic/bayesian_network.py)

The network keeps a node and a belief per use case under the same keys;
both are modelled as one entry list.  Indicator sets are finite string
sets; `keywords` is `strong ∪ weak` as in the node constructor. -/

structure UCEntry where
  uc_id : String
  strong_indicators : Finset String
  weak_indicators : Finset String
  probability : ℚ
deriving DecidableEq

/-- `BayesianNetwork._calculate_likelihood`: base 0.1, plus 0.4 per strong
match and 0.1 per weak match, capped at 0.95; 0.1 outright when the
evidence keyword set is empty. -/
def calcLikelihood (kws : Finset String) (e : UCEntry) : ℚ :=
  if kws = ∅ then 1/10
  else min (1/10 + (4/10) * ((kws ∩ e.strong_indicators).card : ℚ)
             + (1/10) * ((kws ∩ e.weak_indicators).card : ℚ)) (95/100)

/-- The normalization constant of `update_beliefs`: the unnormalized
posterior summed over all use cases. -/
def totalLikelihood (entries : List UCEntry) (kws : Finset String) : ℚ :=
  (entries.map (fun e => calcLikelihood kws e * e.probability)).sum

/-- `BayesianNetwork.update_beliefs`, restricted to the probabilities (the
evidence bookkeeping lists do not affect them). -/
def updateBeliefs (entries : List UCEntry) (kws : Finset String) : List UCEntry :=
  if 0 < totalLikelihood entries kws then
    entries.map (fun e =>
      { e with probability :=
          calcLikelihood kws e * e.probability / totalLikelihood entries kws })
  else entries

/-- The substring test `keyword in text.lower()`; `Char.toLower` over the
character list models `str.lower`. -/
def occursIn (kw text : String) : Bool :=
  decide (kw.toList <:+: text.toList.map Char.toLower)

/-- `BayesianNetwork._extract_keywords`: the known indicator tokens of any
use case that occur in the lowercased evidence text. -/
def extractKeywords (entries : List UCEntry) (text : String) : Finset String :=
  entries.foldl
    (fun acc e =>
      acc ∪ (e.strong_indicators ∪ e.weak_indicators).filter
        (fun k => occursIn k text = true))
    ∅

/-- `update_beliefs` on raw evidence text. -/
def updateBeliefsText (entries : List UCEntry) (text : String) : List UCEntry :=
  updateBeliefs entries (extractKeywords entries text)

theorem calcLikelihood_pos (kws : Finset String) (e : UCEntry) :
    0 < calcLikelihood kws e := by
  unfold calcLikelihood
  split_ifs
  · norm_num
  · apply lt_min
    · positivity
    · norm_num

/-- C6.  After an update with nonzero total unnormalized posterior the
beliefs sum to exactly 1; with zero total the beliefs are unchanged. -/
theorem update_beliefs_normalized (entries : List UCEntry) (kws : Finset String)
    (hpos : ∀ e ∈ entries, 0 ≤ e.probability) :
    (totalLikelihood entries kws ≠ 0 →
      ((updateBeliefs entries kws).map (fun e => e.probability)).sum = 1)
    ∧ (totalLikelihood entries kws = 0 → updateBeliefs entries kws = entries) := by
  constructor
  · intro hne
    have hnn : 0 ≤ totalLikelihood entries kws := by
      apply List.sum_nonneg
      intro x hx
      rw [List.mem_map] at hx
      obtain ⟨e, he, rfl⟩ := hx
      exact mul_nonneg (le_of_lt (calcLikelihood_pos kws e)) (hpos e he)
    have htot : 0 < totalLikelihood entries kws := lt_of_le_of_ne hnn (Ne.symm hne)
    unfold updateBeliefs
    rw [if_pos htot, List.map_map]
    have hcomp : ((fun e : UCEntry => e.probability) ∘ fun e =>
        { e with probability :=
            calcLikelihood kws e * e.probability / totalLikelihood entries kws })
        = fun e => calcLikelihood kws e * e.probability * (totalLikelihood entries kws)⁻¹ := by
      funext e
      simp [div_eq_mul_inv]
    rw [hcomp, List.sum_map_mul_right]
    exact mul_inv_cancel₀ hne
  · intro h0
    unfold updateBeliefs
    rw [if_neg (by rw [h0]; exact lt_irrefl 0)]

def entriesC6 : List UCEntry :=
  [{ uc_id := "UC3", strong_indicators := {"plc", "industrial", "scada"},
     weak_indicators := ∅, probability := 1/4 },
   { uc_id := "UC5", strong_indicators := {"motion", "servo", "trajectory"},
     weak_indicators := ∅, probability := 3/4 }]

theorem extractKeywords_empty (entries : List UCEntry) (text : String) :
    (∀ e ∈ entries, ∀ k ∈ e.strong_indicators ∪ e.weak_indicators,
      occursIn k text = false) →
    extractKeywords entries text = ∅ := by
  unfold extractKeywords
  induction entries with
  | nil => intro _; rfl
  | cons e rest ih =>
    intro hnone
    rw [List.foldl_cons]
    have hfe : (e.strong_indicators ∪ e.weak_indicators).filter
        (fun k => occursIn k text = true) = ∅ := by
      rw [Finset.filter_eq_empty_iff]
      intro k hk
      simp [hnone e (List.mem_cons_self e rest) k hk]
    rw [hfe, Finset.union_empty]
    exact ih (fun e' he' => hnone e' (List.mem_cons_of_mem e he'))

theorem calcLikelihood_empty (e : UCEntry) : calcLikelihood ∅ e = 1/10 := by
  simp [calcLikelihood]

theorem totalLikelihood_empty (entries : List UCEntry) :
    totalLikelihood entries ∅ = 1/10 * (entries.map (fun e => e.probability)).sum := by
  unfold totalLikelihood
  rw [List.map_congr_left (fun e _ => by rw [calcLikelihood_empty] :
    ∀ e ∈ entries, calcLikelihood ∅ e * e.probability = 1/10 * e.probability)]
  rw [← List.sum_map_mul_left]

/-- Witness for C6 at concrete inputs. -/
theorem update_beliefs_normalized_witness :
    ((updateBeliefs entriesC6 ∅).map (fun e => e.probability)).sum = 1 :=
  (update_beliefs_normalized entriesC6 ∅
    (by
      intro e he
      simp only [entriesC6, List.mem_cons, List.not_mem_nil, or_false] at he
      rcases he with rfl | rfl <;> norm_num)).1
    (by rw [totalLikelihood_empty]; norm_num [entriesC6])

/-- C10.  When the evidence text contains no indicator token of any use
case, every likelihood is the 0.1 base, so the update normalizes back to
the original distribution: it is the identity on a belief state summing
to 1. -/
theorem no_indicator_update_identity (entries : List UCEntry) (text : String)
    (hnone : ∀ e ∈ entries, ∀ k ∈ e.strong_indicators ∪ e.weak_indicators,
      occursIn k text = false)
    (hsum : (entries.map (fun e => e.probability)).sum = 1) :
    updateBeliefsText entries text = entries := by
  unfold updateBeliefsText
  rw [extractKeywords_empty entries text hnone]
  unfold updateBeliefs
  rw [if_pos (by rw [totalLikelihood_empty, hsum]; norm_num)]
  have hid : ∀ e ∈ entries,
      ({ e with probability :=
          calcLikelihood ∅ e * e.probability / totalLikelihood entries ∅ } : UCEntry)
        = e := by
    intro e _
    have hprob : calcLikelihood ∅ e * e.probability / totalLikelihood entries ∅
        = e.probability := by
      rw [calcLikelihood_empty, totalLikelihood_empty, hsum]
      norm_num
    rw [hprob]
  rw [List.map_congr_left hid]
  simp

def entriesC10 : List UCEntry :=
  [{ uc_id := "UC3", strong_indicators := {"plc", "industrial"},
     weak_indicators := {"control"}, probability := 2/5 },
   { uc_id := "UC6", strong_indicators := {"pump", "flow"},
     weak_indicators := {"water"}, probability := 3/5 }]

/-- Witness for C10: evidence text with no indicator occurrences leaves
the concrete belief state unchanged. -/
theorem no_indicator_update_identity_witness :
    updateBeliefsText entriesC10 "hello there" = entriesC10 :=
  no_indicator_update_identity entriesC10 "hello there"
    (by decide) (by norm_num [entriesC10])

/-! ### Confidence aggregator (C7)
(phase2/probabilistic/phase2_confidence_aggregator.py)

The strategy selection compares `np.std` (population standard deviation)
against 0.1 and 0.3; since both sides are nonnegative this is equivalent
to comparing the population variance against 0.01 and 0.09, which keeps
the embedding inside ℚ.  The float exponentiation `odds ** weight` of the
Bayesian strategy is not rational-valued, so it is a parameter `rpow` of
the embedding; the bound theorem assumes only that it maps positives to
positives, as real exponentiation does.  The historical strategy
performance dict is likewise a parameter `perf`. -/

structure AgentConfidence where
  agent_id : String
  confidence : ℚ
  expertise_weight : ℚ
  evidence_count : Nat
  uncertainty_reason : Option String
deriving DecidableEq

inductive AggregationStrategy where
  | WEIGHTED
  | MINIMUM
  | BAYESIAN
  | ADAPTIVE
  | VOTING
deriving DecidableEq

structure AggregatedConfidence where
  final_confidence : ℚ
  strategy_used : AggregationStrategy
  contributing_agents : List String
  confidence_breakdown : List (String × ℚ)
  requires_disambiguation : Bool
  auto_resolve_eligible : Bool
  explanation : String
deriving DecidableEq

/-- `self.agent_weights.get(agent_id, 0.33)`. -/
def agentWeights (agentId : String) : ℚ :=
  if agentId = "io_expert" then 4/10
  else if agentId = "system_expert" then 35/100
  else if agentId = "communication_expert" then 25/100
  else 33/100

def confMean (confs : List AgentConfidence) : ℚ :=
  (confs.map (fun c => c.confidence)).sum / confs.length

/-- Population variance, i.e. the square of `np.std`. -/
def confVariance (confs : List AgentConfidence) : ℚ :=
  ((confs.map (fun c => c.confidence)).map (fun x => (x - confMean confs) ^ 2)).sum
    / confs.length

/-- `ConfidenceAggregator._select_strategy` (std thresholds squared). -/
def selectStrategy (confs : List AgentConfidence) (isCritical : Bool) :
    AggregationStrategy :=
  if isCritical then .VOTING
  else if confVariance confs < 1/100 then .WEIGHTED
  else if 9/100 < confVariance confs then .MINIMUM
  else if confMean confs < 6/10 then .BAYESIAN
  else .ADAPTIVE

def lowConfidenceResult (reason : String) : AggregatedConfidence :=
  { final_confidence := 0, strategy_used := .MINIMUM, contributing_agents := [],
    confidence_breakdown := [], requires_disambiguation := true,
    auto_resolve_eligible := false, explanation := reason }

def weightedTotal (confs : List AgentConfidence) : ℚ :=
  (confs.map (fun c => agentWeights c.agent_id)).sum

def weightedSumConf (confs : List AgentConfidence) : ℚ :=
  (confs.map (fun c => c.confidence * agentWeights c.agent_id)).sum

/-- `ConfidenceAggregator._weighted_aggregation`. -/
def weightedAgg (confs : List AgentConfidence) : AggregatedConfidence :=
  { final_confidence :=
      if 0 < weightedTotal confs then weightedSumConf confs / weightedTotal confs else 0,
    strategy_used := .WEIGHTED,
    contributing_agents := confs.map (fun c => c.agent_id),
    confidence_breakdown := confs.map (fun c => (c.agent_id, c.confidence)),
    requires_disambiguation := false, auto_resolve_eligible := false,
    explanation := "Weighted average: IO(40%), System(35%), Comm(25%)" }

def minConfidence : List AgentConfidence → ℚ
  | [] => 0
  | c :: rest => rest.foldl (fun m x => min m x.confidence) c.confidence

/-- `ConfidenceAggregator._minimum_aggregation` (always called on a
nonempty list; the empty case is unreachable). -/
def minimumAgg (confs : List AgentConfidence) : AggregatedConfidence :=
  { final_confidence := minConfidence confs,
    strategy_used := .MINIMUM,
    contributing_agents := confs.map (fun c => c.agent_id),
    confidence_breakdown := confs.map (fun c => (c.agent_id, c.confidence)),
    requires_disambiguation := false, auto_resolve_eligible := false,
    explanation := "Conservative: using minimum reported confidence" }

/-- The odds of the agents with confidence strictly inside (0, 1), each
raised to the agent's expertise weight. -/
def oddsList (rpow : ℚ → ℚ → ℚ) (confs : List AgentConfidence) : List ℚ :=
  confs.filterMap (fun c =>
    if 0 < c.confidence ∧ c.confidence < 1 then
      some (rpow (c.confidence / (1 - c.confidence)) (agentWeights c.agent_id))
    else none)

/-- `ConfidenceAggregator._bayesian_aggregation`. -/
def bayesianAgg (rpow : ℚ → ℚ → ℚ) (confs : List AgentConfidence) :
    AggregatedConfidence :=
  if oddsList rpow confs = [] then lowConfidenceResult "Invalid confidences for Bayesian"
  else
    { final_confidence :=
        (oddsList rpow confs).prod / (1 + (oddsList rpow confs).prod),
      strategy_used := .BAYESIAN,
      contributing_agents := confs.map (fun c => c.agent_id),
      confidence_breakdown := confs.map (fun c => (c.agent_id, c.confidence)),
      requires_disambiguation := false, auto_resolve_eligible := false,
      explanation := "Bayesian combination considering evidence independence" }

def voteRatio (confs : List AgentConfidence) : ℚ :=
  ((confs.filter (fun c => 6/10 ≤ c.confidence)).length : ℚ) / (confs.length : ℚ)

/-- `ConfidenceAggregator._voting_aggregation`. -/
def votingAgg (confs : List AgentConfidence) : AggregatedConfidence :=
  { final_confidence := if 1/2 < voteRatio confs then voteRatio confs else 3/10,
    strategy_used := .VOTING,
    contributing_agents := confs.map (fun c => c.agent_id),
    confidence_breakdown := confs.map (fun c => (c.agent_id, c.confidence)),
    requires_disambiguation := false, auto_resolve_eligible := false,
    explanation := "Voting: majority of agents above threshold" }

def adaptiveList (rpow : ℚ → ℚ → ℚ) (confs : List AgentConfidence) :
    List AggregatedConfidence :=
  [weightedAgg confs, minimumAgg confs, bayesianAgg rpow confs]

def adaptiveTotal (rpow : ℚ → ℚ → ℚ) (perf : AggregationStrategy → ℚ)
    (confs : List AgentConfidence) : ℚ :=
  ((adaptiveList rpow confs).map (fun r => perf r.strategy_used)).sum

def adaptiveWeighted (rpow : ℚ → ℚ → ℚ) (perf : AggregationStrategy → ℚ)
    (confs : List AgentConfidence) : ℚ :=
  ((adaptiveList rpow confs).map (fun r => r.final_confidence * perf r.strategy_used)).sum

/-- `ConfidenceAggregator._adaptive_aggregation`: blend of the weighted,
minimum and Bayesian results, weighted by historical performance. -/
def adaptiveAgg (rpow : ℚ → ℚ → ℚ) (perf : AggregationStrategy → ℚ)
    (confs : List AgentConfidence) : AggregatedConfidence :=
  { final_confidence :=
      if 0 < adaptiveTotal rpow perf confs then
        adaptiveWeighted rpow perf confs / adaptiveTotal rpow perf confs
      else 0,
    strategy_used := .ADAPTIVE,
    contributing_agents := confs.map (fun c => c.agent_id),
    confidence_breakdown := confs.map (fun c => (c.agent_id, c.confidence)),
    requires_disambiguation := false, auto_resolve_eligible := false,
    explanation := "Adaptive: combining strategies based on performance" }

/-- `ConfidenceAggregator._needs_disambiguation`. -/
def needsDisambiguation (r : AggregatedConfidence)
    (confs : List AgentConfidence) : Bool :=
  if r.final_confidence < 1/2 then true
  else if 9/100 < confVariance confs then true
  else if confs.any (fun c => c.uncertainty_reason.isSome) then true
  else false

/-- `ConfidenceAggregator._can_auto_resolve`. -/
def canAutoResolve (r : AggregatedConfidence)
    (confs : List AgentConfidence) : Bool :=
  if 8/10 < r.final_confidence then true
  else
    match confs with
    | [a, b] => if 3/10 < |a.confidence - b.confidence| then true else false
    | _ => false

/-- `ConfidenceAggregator.aggregate`. -/
def aggregate (rpow : ℚ → ℚ → ℚ) (perf : AggregationStrategy → ℚ)
    (confs : List AgentConfidence) (isCritical : Bool) : AggregatedConfidence :=
  match confs with
  | [] => lowConfidenceResult "No agent inputs"
  | _ :: _ =>
    let r :=
      match selectStrategy confs isCritical with
      | .WEIGHTED => weightedAgg confs
      | .MINIMUM => minimumAgg confs
      | .BAYESIAN => bayesianAgg rpow confs
      | .VOTING => votingAgg confs
      | .ADAPTIVE => adaptiveAgg rpow perf confs
    { r with requires_disambiguation := needsDisambiguation r confs,
             auto_resolve_eligible := canAutoResolve r confs }

theorem agentWeights_pos (agentId : String) : 0 < agentWeights agentId := by
  unfold agentWeights
  split_ifs <;> norm_num

theorem sum_mul_nonneg {α : Type} (l : List α) (f g : α → ℚ)
    (h : ∀ a ∈ l, 0 ≤ f a ∧ 0 ≤ g a) :
    0 ≤ (l.map (fun a => f a * g a)).sum := by
  apply List.sum_nonneg
  intro x hx
  rw [List.mem_map] at hx
  obtain ⟨a, ha, rfl⟩ := hx
  exact mul_nonneg (h a ha).1 (h a ha).2

theorem sum_mul_le_sum {α : Type} (l : List α) (f g : α → ℚ)
    (h : ∀ a ∈ l, f a ≤ 1 ∧ 0 ≤ g a) :
    (l.map (fun a => f a * g a)).sum ≤ (l.map g).sum := by
  induction l with
  | nil => simp
  | cons a rest ih =>
    simp only [List.map_cons, List.sum_cons]
    have ha := h a (List.mem_cons_self a rest)
    have h1 : f a * g a ≤ g a := by
      have := mul_le_mul_of_nonneg_right ha.1 ha.2
      rwa [one_mul] at this
    have h2 := ih (fun x hx => h x (List.mem_cons_of_mem a hx))
    linarith

theorem weighted_avg_bound {α : Type} (l : List α) (f g : α → ℚ)
    (h : ∀ a ∈ l, 0 ≤ f a ∧ f a ≤ 1 ∧ 0 ≤ g a) :
    0 ≤ (if 0 < (l.map g).sum then (l.map (fun a => f a * g a)).sum / (l.map g).sum else 0)
    ∧ (if 0 < (l.map g).sum then (l.map (fun a => f a * g a)).sum / (l.map g).sum else 0)
        ≤ 1 := by
  split_ifs with hw
  · constructor
    · exact div_nonneg
        (sum_mul_nonneg l f g (fun a ha => ⟨(h a ha).1, (h a ha).2.2⟩)) (le_of_lt hw)
    · rw [div_le_one hw]
      exact sum_mul_le_sum l f g (fun a ha => ⟨(h a ha).2.1, (h a ha).2.2⟩)
  · norm_num

theorem weightedAgg_bound (confs : List AgentConfidence)
    (hconf : ∀ c ∈ confs, 0 ≤ c.confidence ∧ c.confidence ≤ 1) :
    0 ≤ (weightedAgg confs).final_confidence
    ∧ (weightedAgg confs).final_confidence ≤ 1 :=
  weighted_avg_bound confs (fun c => c.confidence) (fun c => agentWeights c.agent_id)
    (fun c hc => ⟨(hconf c hc).1, (hconf c hc).2, le_of_lt (agentWeights_pos c.agent_id)⟩)

theorem foldl_min_bound (rest : List AgentConfidence) :
    ∀ acc : ℚ, 0 ≤ acc → acc ≤ 1 →
    (∀ c ∈ rest, 0 ≤ c.confidence ∧ c.confidence ≤ 1) →
    0 ≤ rest.foldl (fun m x => min m x.confidence) acc
    ∧ rest.foldl (fun m x => min m x.confidence) acc ≤ 1 := by
  induction rest with
  | nil => intro acc h0 h1 _; exact ⟨h0, h1⟩
  | cons c rest ih =>
    intro acc h0 h1 h
    have hc := h c (List.mem_cons_self c rest)
    exact ih (min acc c.confidence) (le_min h0 hc.1)
      (le_trans (min_le_left _ _) h1)
      (fun x hx => h x (List.mem_cons_of_mem c hx))

theorem minimumAgg_bound (confs : List AgentConfidence)
    (hconf : ∀ c ∈ confs, 0 ≤ c.confidence ∧ c.confidence ≤ 1) :
    0 ≤ (minimumAgg confs).final_confidence
    ∧ (minimumAgg confs).final_confidence ≤ 1 := by
  cases confs with
  | nil => constructor <;> norm_num [minimumAgg, minConfidence]
  | cons c rest =>
    have hc := hconf c (List.mem_cons_self c rest)
    exact foldl_min_bound rest c.confidence hc.1 hc.2
      (fun x hx => hconf x (List.mem_cons_of_mem c hx))

theorem oddsList_pos (rpow : ℚ → ℚ → ℚ)
    (hrpow : ∀ x w, 0 < x → 0 < rpow x w) (confs : List AgentConfidence) :
    ∀ o ∈ oddsList rpow confs, 0 < o := by
  intro o ho
  unfold oddsList at ho
  rw [List.mem_filterMap] at ho
  obtain ⟨c, _, hoc⟩ := ho
  split_ifs at hoc with h
  · rw [Option.some_inj] at hoc
    subst hoc
    exact hrpow _ _ (div_pos h.1 (by linarith [h.2]))

theorem bayesianAgg_bound (rpow : ℚ → ℚ → ℚ)
    (hrpow : ∀ x w, 0 < x → 0 < rpow x w) (confs : List AgentConfidence) :
    0 ≤ (bayesianAgg rpow confs).final_confidence
    ∧ (bayesianAgg rpow confs).final_confidence ≤ 1 := by
  unfold bayesianAgg
  split_ifs with h
  · constructor <;> norm_num [lowConfidenceResult]
  · have hpos : 0 < (oddsList rpow confs).prod :=
      List.prod_pos (oddsList_pos rpow hrpow confs)
    constructor
    · exact div_nonneg (le_of_lt hpos) (by linarith)
    · rw [div_le_one (by linarith)]
      linarith

theorem voteRatio_bound (confs : List AgentConfidence) :
    0 ≤ voteRatio confs ∧ voteRatio confs ≤ 1 := by
  unfold voteRatio
  constructor
  · positivity
  · rcases Nat.eq_zero_or_pos confs.length with h | h
    · rw [h]
      simp
    · rw [div_le_one (by exact_mod_cast h)]
      exact_mod_cast List.length_filter_le _ _

theorem votingAgg_bound (confs : List AgentConfidence) :
    0 ≤ (votingAgg confs).final_confidence
    ∧ (votingAgg confs).final_confidence ≤ 1 := by
  have hr := voteRatio_bound confs
  have hfc : (votingAgg confs).final_confidence
      = if 1/2 < voteRatio confs then voteRatio confs else 3/10 := rfl
  rw [hfc]
  split_ifs with h
  · exact hr
  · constructor <;> norm_num

theorem adaptiveAgg_bound (rpow : ℚ → ℚ → ℚ) (perf : AggregationStrategy → ℚ)
    (confs : List AgentConfidence)
    (hconf : ∀ c ∈ confs, 0 ≤ c.confidence ∧ c.confidence ≤ 1)
    (hrpow : ∀ x w, 0 < x → 0 < rpow x w)
    (hperf : ∀ st, 0 ≤ perf st) :
    0 ≤ (adaptiveAgg rpow perf confs).final_confidence
    ∧ (adaptiveAgg rpow perf confs).final_confidence ≤ 1 := by
  have hmembound : ∀ r ∈ adaptiveList rpow confs,
      0 ≤ r.final_confidence ∧ r.final_confidence ≤ 1 ∧ 0 ≤ perf r.strategy_used := by
    intro r hr
    unfold adaptiveList at hr
    simp only [List.mem_cons, List.not_mem_nil, or_false] at hr
    rcases hr with rfl | rfl | rfl
    · exact ⟨(weightedAgg_bound confs hconf).1, (weightedAgg_bound confs hconf).2,
        hperf _⟩
    · exact ⟨(minimumAgg_bound confs hconf).1, (minimumAgg_bound confs hconf).2,
        hperf _⟩
    · exact ⟨(bayesianAgg_bound rpow hrpow confs).1,
        (bayesianAgg_bound rpow hrpow confs).2, hperf _⟩
  exact weighted_avg_bound (adaptiveList rpow confs)
    (fun r => r.final_confidence) (fun r => perf r.strategy_used) hmembound

/-- C7.  For every nonempty list of agent confidences in [0,1], the
aggregated `final_confidence` lies in [0,1], whichever strategy the
selection rules pick. -/
theorem aggregate_confidence_bounds (rpow : ℚ → ℚ → ℚ)
    (perf : AggregationStrategy → ℚ) (confs : List AgentConfidence)
    (isCritical : Bool)
    (hne : confs ≠ [])
    (hconf : ∀ c ∈ confs, 0 ≤ c.confidence ∧ c.confidence ≤ 1)
    (hrpow : ∀ x w, 0 < x → 0 < rpow x w)
    (hperf : ∀ st, 0 ≤ perf st) :
    0 ≤ (aggregate rpow perf confs isCritical).final_confidence
    ∧ (aggregate rpow perf confs isCritical).final_confidence ≤ 1 := by
  cases confs with
  | nil => exact absurd rfl hne
  | cons c rest =>
    have key : ∀ st : AggregationStrategy,
        0 ≤ (match st with
             | .WEIGHTED => weightedAgg (c :: rest)
             | .MINIMUM => minimumAgg (c :: rest)
             | .BAYESIAN => bayesianAgg rpow (c :: rest)
             | .VOTING => votingAgg (c :: rest)
             | .ADAPTIVE => adaptiveAgg rpow perf (c :: rest)).final_confidence
        ∧ (match st with
             | .WEIGHTED => weightedAgg (c :: rest)
             | .MINIMUM => minimumAgg (c :: rest)
             | .BAYESIAN => bayesianAgg rpow (c :: rest)
             | .VOTING => votingAgg (c :: rest)
             | .ADAPTIVE => adaptiveAgg rpow perf (c :: rest)).final_confidence ≤ 1 := by
      intro st
      cases st with
      | WEIGHTED => exact weightedAgg_bound _ hconf
      | MINIMUM => exact minimumAgg_bound _ hconf
      | BAYESIAN => exact bayesianAgg_bound rpow hrpow _
      | VOTING => exact votingAgg_bound _
      | ADAPTIVE => exact adaptiveAgg_bound rpow perf _ hconf hrpow hperf
    exact key (selectStrategy (c :: rest) isCritical)

def confsC7 : List AgentConfidence :=
  [{ agent_id := "io_expert", confidence := 1/2, expertise_weight := 4/10,
     evidence_count := 3, uncertainty_reason := none },
   { agent_id := "system_expert", confidence := 9/10, expertise_weight := 35/100,
     evidence_count := 2, uncertainty_reason := none }]

/-- Witness for C7 at concrete inputs (identity power function, unit
performance weights). -/
theorem aggregate_confidence_bounds_witness :
    0 ≤ (aggregate (fun x _ => x) (fun _ => 1) confsC7 false).final_confidence
    ∧ (aggregate (fun x _ => x) (fun _ => 1) confsC7 false).final_confidence ≤ 1 :=
  aggregate_confidence_bounds (fun x _ => x) (fun _ => 1) confsC7 false
    (by simp [confsC7])
    (by
      intro c hc
      simp only [confsC7, List.mem_cons, List.not_mem_nil, or_false] at hc
      rcases hc with rfl | rfl <;> norm_num)
    (fun _ _ h => h)
    (fun _ => zero_le_one)

end ReqMas
